import Mathlib

/-!
Verification of the document-structure inference pipeline of
`process_pdfs.py` (title and heading-outline extraction from page-layout
data).  The Python source is embedded shallowly: spans, lines, blocks and
pages become Lean structures; font sizes are rounded to integers with
Python's round-half-to-even; geometric coordinates and raw font sizes are
rationals (the source compares floats such as `size > body_size * 1.1`;
these comparisons are embedded exactly as rational comparisons).
-/

namespace PdfOutline

/-- Whitespace test used wherever the Python source relies on `str.strip`,
`str.split()` or the regex class `\s`. -/
def wspace (c : Char) : Bool := c.isWhitespace

/-- `stripL` models Python `str.strip()` on the character list: remove
leading and trailing whitespace. -/
def stripL (l : List Char) : List Char := (l.dropWhile wspace).rdropWhile wspace

/-- Python `str.strip()`. -/
def pstrip (s : String) : String := String.mk (stripL s.toList)

/-- Python `round` on a rational value: round half to even
(the source rounds every span's font size: `round(span['size'])`). -/
def pyRound (q : ℚ) : ℤ :=
  let f := q.floor
  let r := q - (f : ℚ)
  if r < 1 / 2 then f
  else if 1 / 2 < r then f + 1
  else if f % 2 = 0 then f else f + 1

/-- Lower-casing as used by `str.lower()` on the ASCII font names and
heading texts the source inspects. -/
def lowerL (l : List Char) : List Char := l.map Char.toLower

/-- `isPrefixL pat l` holds when `pat` is a leading segment of `l`
(used for `str.startswith`). -/
def isPrefixL : List Char → List Char → Bool
  | [], _ => true
  | _ :: _, [] => false
  | a :: t, b :: u => a = b && isPrefixL t u

/-- `containsSub pat l` models Python's substring test `pat in l`
(used for `"bold" in font.lower()`). -/
def containsSub (pat : List Char) : List Char → Bool
  | [] => pat.isEmpty
  | c :: t => isPrefixL pat (c :: t) || containsSub pat t

/-- Number of whitespace-separated words, Python `len(text.split())`. -/
def wordsAux : List Char → Bool → Nat
  | [], _ => 0
  | c :: t, inWord =>
    if wspace c then wordsAux t false
    else (if inWord then 0 else 1) + wordsAux t true

/-- Python `len(s.split())`. -/
def wordCount (s : String) : Nat := wordsAux s.toList false

/-- One occurrence-counting step of a `collections.Counter`: increment the
count of key `k`, preserving insertion order of first occurrences. -/
def bump {α : Type} [DecidableEq α] : List (α × Nat) → α → List (α × Nat)
  | [], k => [(k, 1)]
  | (a, n) :: t, k => if a = k then (a, n + 1) :: t else (a, n) :: bump t k

/-- Count held by a counter for key `k` (`Counter[k]`, zero if absent). -/
def countOf {α : Type} [DecidableEq α] (l : List (α × Nat)) (k : α) : Nat :=
  match l.find? (fun p => p.1 = k) with
  | some p => p.2
  | none => 0

/-- `Counter.most_common(1)`: the key of maximal count, ties resolved in
favour of the key inserted first. -/
def mostCommon {α : Type} (l : List (α × Nat)) : Option α :=
  (l.foldl (fun best p =>
    match best with
    | none => some p
    | some q => if q.2 < p.2 then some p else some q) none).map (·.1)

/-- A text span as delivered by the layout engine: raw text, (float) font
size, and font name (`span['text']`, `span['size']`, `span['font']`). -/
structure Span where
  text : String
  size : ℚ
  font : String
deriving DecidableEq

/-- A source-layout line: its spans plus the vertical extent of its
bounding box (`line['bbox'][1]` and `line['bbox'][3]`). -/
structure SrcLine where
  spans : List Span
  y0 : ℚ
  y1 : ℚ
deriving DecidableEq

/-- A block of lines (`block['lines']`). -/
structure Block where
  lines : List SrcLine
deriving DecidableEq

/-- A page: its height (`page.rect.height`) and blocks. -/
structure Page where
  height : ℚ
  blocks : List Block
deriving DecidableEq

/-- A document: pages plus the metadata title (`doc.metadata['title']`). -/
structure Doc where
  pages : List Page
  metaTitle : String
deriving DecidableEq

/-- A reconstructed line, the record built by
`reconstruct_lines_with_spacing` for each kept source line. -/
structure Line where
  page : Nat
  text : String
  size : ℤ
  font : String
  is_bold : Bool
  space_above : ℚ
  y0 : ℚ
deriving DecidableEq

/-- An outline entry (`{"level": ..., "text": ..., "page": ...}`). -/
structure Entry where
  level : String
  text : String
  page : Nat
deriving DecidableEq

/-- `"bold" in first_span['font'].lower()`. -/
def hasBold (font : String) : Bool :=
  containsSub "bold".toList (lowerL font.toList)

/-- The record `reconstruct_lines_with_spacing` appends for one source
line, or `none` when the line is skipped (no spans, or text shorter than
2 characters after trimming). -/
def reconstructLine (pageNum : Nat) (lastY1 : ℚ) (l : SrcLine) : Option Line :=
  match l.spans with
  | [] => none
  | s :: _ =>
    let text := pstrip (String.intercalate " " (l.spans.map Span.text))
    if text.length < 2 then none
    else some
      { page := pageNum + 1
        text := text
        size := pyRound s.size
        font := s.font
        is_bold := hasBold s.font
        space_above := l.y0 - lastY1
        y0 := l.y0 }

/-- The per-block loop of `reconstruct_lines_with_spacing`: `last_y1`
starts at 0 for each block and advances only when a line is kept. -/
def reconstructBlockLines (pageNum : Nat) (lastY1 : ℚ) : List SrcLine → List Line
  | [] => []
  | l :: rest =>
    match reconstructLine pageNum lastY1 l with
    | none => reconstructBlockLines pageNum lastY1 rest
    | some r => r :: reconstructBlockLines pageNum l.y1 rest

/-- Reconstruction of one block. -/
def reconstructBlock (pageNum : Nat) (b : Block) : List Line :=
  reconstructBlockLines pageNum 0 b.lines

/-- Reconstruction of one page: blocks in order. -/
def reconstructPage (pageNum : Nat) (p : Page) : List Line :=
  (p.blocks.map (reconstructBlock pageNum)).flatten

/-- `reconstruct_lines_with_spacing(doc)`: all pages, in order. -/
def reconstruct (doc : Doc) : List Line :=
  (doc.pages.enum.map (fun pi => reconstructPage pi.1 pi.2)).flatten

/-- The page sample of `get_body_style`:
`set(p for p in [0, 1, page_count // 2, page_count - 1] if 0 <= p < page_count)`,
iterated in ascending order. -/
def bodyScanPages (pc : Nat) : List Nat :=
  ((([0, 1, (pc : ℤ) / 2, (pc : ℤ) - 1]).filter
      (fun p => decide (0 ≤ p) && decide (p < (pc : ℤ)))).map Int.toNat).dedup

/-- All spans on the sampled pages carrying non-whitespace text, in scan
order. -/
def bodySpans (pages : List Page) : List Span :=
  ((bodyScanPages pages.length).map (fun p =>
    (((pages.getD p { height := 0, blocks := [] }).blocks.map Block.lines).flatten.map
        SrcLine.spans).flatten)).flatten.filter
    (fun s => decide (pstrip s.text ≠ ""))

/-- `get_body_style(doc)`: the most frequent rounded span size on the
sampled pages, defaulting to 10 when no span was counted. -/
def bodyStyle (doc : Doc) : ℤ :=
  match mostCommon ((bodySpans doc.pages).foldl (fun ctr s => bump ctr (pyRound s.size)) []) with
  | some z => z
  | none => 10

/-- The page-1 lines whose size exceeds `1.3 * body_size`
(`looks_like_cover_page`'s `large_lines`). -/
def largeLines (lines : List Line) (body : ℤ) : List Line :=
  lines.filter (fun l => decide (l.page = 1) && decide (13 * body < 10 * l.size))

/-- `looks_like_cover_page(lines, body_size)`. -/
def looksLikeCoverPage (lines : List Line) (body : ℤ) : Bool :=
  decide (3 ≤ (largeLines lines body).length) &&
    ((largeLines lines body).drop 1).all (fun l => decide ((5 : ℚ) < l.space_above))

/-- The footer page sample:
`[p for p in [0, 1, page_count - 2, page_count - 1] if 0 <= p < page_count]`
— a list, not a set, so short documents scan a page more than once. -/
def footerScanPages (pc : Nat) : List Nat :=
  (([0, 1, (pc : ℤ) - 2, (pc : ℤ) - 1]).filter
      (fun p => decide (0 ≤ p) && decide (p < (pc : ℤ)))).map Int.toNat

/-- The footer counter: every reconstructed line on a sampled page whose
top coordinate is at or past 85% of that page's height is counted by its
exact text. -/
def footerCounts (pages : List Page) (lines : List Line) : List (String × Nat) :=
  (footerScanPages pages.length).foldl (fun ctr p =>
    lines.foldl (fun c l =>
      if l.page = p + 1 ∧ (pages.getD p { height := 0, blocks := [] }).height * (17 / 20) ≤ l.y0
      then bump c l.text else c) ctr) []

/-- `footers_to_ignore`: the texts counted more than once. -/
def footersToIgnore (pages : List Page) (lines : List Line) : List String :=
  ((footerCounts pages lines).filter (fun p => decide (1 < p.2))).map (·.1)

/-- `re.fullmatch(r'[.\-–—•\s]{5,}', text)`: at least five characters,
all of them dots, dashes, bullets or whitespace. -/
def junkDots (s : String) : Bool :=
  decide (5 ≤ s.length) &&
    s.toList.all (fun c =>
      c = '.' || c = '-' || c = '–' || c = '—' || c = '•' || wspace c)

/-- `re.fullmatch(r'\d+[\.:]?', text)`: one or more digits, optionally
followed by a single dot or colon. -/
def pureNumber (s : String) : Bool :=
  let t := s.toList
  (!t.isEmpty && t.all Char.isDigit) ||
    (match t.getLast? with
     | some c => (c = '.' || c = ':') && (!t.dropLast.isEmpty && t.dropLast.all Char.isDigit)
     | none => false)

/-- `re.match(r'^\s*\d+[\.\):]\s+', text)`: optional leading whitespace,
digits, one of `.`, `)`, `:`, then at least one whitespace character. -/
def listItemPref (s : String) : Bool :=
  let t := s.toList.dropWhile wspace
  match t with
  | c :: _ =>
    c.isDigit &&
      (match t.dropWhile Char.isDigit with
       | sep :: d :: _ => (sep = '.' || sep = ')' || sep = ':') && wspace d
       | _ => false)
  | [] => false

/-- The tail of the structured-heading pattern after the numbering group:
one of `.`, `)`, `:`, `-`, then whitespace, then an ASCII capital. -/
def sepSuffix : List Char → Bool
  | c :: d :: rest =>
    (c = '.' || c = ')' || c = ':' || c = '-') && wspace d &&
      (match (d :: rest).dropWhile wspace with
       | e :: _ => e.isUpper
       | [] => false)
  | _ => false

/-- After the leading digit group of `\d+(\.\d+)*`: zero or more further
`.digits` groups, then the separator suffix.  Mirrors the regex's choice
of how many `(\.\d+)` repetitions to take.  Structural recursion on a
fuel argument: each recursive step consumes at least two characters, so
a fuel equal to the list length never runs out. -/
def numTailF : Nat → List Char → Bool
  | 0, _ => false
  | _ + 1, [] => false
  | _ + 1, [c] => sepSuffix [c]
  | fuel + 1, c :: d :: rest =>
    sepSuffix (c :: d :: rest) ||
      (c = '.' && d.isDigit && numTailF fuel ((d :: rest).dropWhile Char.isDigit))

/-- The `(\.\d+)*` tail matcher, with sufficient fuel. -/
def numTail (t : List Char) : Bool := numTailF t.length t

/-- `re.match(r'^\s*(\d+(\.\d+)*|[A-Z])[\.\):\-]\s+[A-Z]', text)`:
the structured-heading prefix pattern. -/
def structuredHeading (s : String) : Bool :=
  match s.toList.dropWhile wspace with
  | [] => false
  | c :: rest =>
    (c.isDigit && numTail ((c :: rest).dropWhile Char.isDigit)) ||
      (c.isUpper && sepSuffix rest)

/-- `text.endswith('.')`. -/
def endsWithDot (s : String) : Bool :=
  decide (s.toList.getLast? = some '.')

/-- The junk-pattern exclusion rules applied to each line before scoring
(footer set, dot runs, bare numbers, very short strings, table of
contents, long numbered list items).  `text` is the stripped line text. -/
def passesExclusions (footers : List String) (l : Line) : Bool :=
  let text := pstrip l.text
  decide (text ∉ footers) &&
    !junkDots text &&
    !pureNumber text &&
    !decide (text.length < 4) &&
    !isPrefixL "table of contents".toList (lowerL text.toList) &&
    !(listItemPref text && decide (10 < wordCount text))

/-- The additive heading score of a line: +3 bold, +3 size above
`1.1 * body`, +2 gap above `0.8 * body`, +1 fewer than 15 words,
+2 short structured heading, −3 sentence-like (ends with a dot, more
than 8 words). -/
def lineScore (body : ℤ) (l : Line) : ℤ :=
  let text := pstrip l.text
  (if l.is_bold then 3 else 0) +
    (if 11 * body < 10 * l.size then 3 else 0) +
    (if (body : ℚ) * (4 / 5) < l.space_above then 2 else 0) +
    (if wordCount text < 15 then 1 else 0) +
    (if structuredHeading text ∧ wordCount text ≤ 10 then 2 else 0) -
    (if endsWithDot text ∧ 8 < wordCount text then 3 else 0)

/-- A line survives to become a heading candidate iff it passes every
exclusion rule and scores at least 4. -/
def candidateFilter (footers : List String) (body : ℤ) (l : Line) : Bool :=
  passesExclusions footers l && decide (4 ≤ lineScore body l)

/-- The distinct `(size, is_bold)` style pairs of the candidates, in
descending order (size first, bold ties first):
`sorted(set((c["size"], c["is_bold"]) for c in candidates), reverse=True)`. -/
def styleGe (a b : ℤ × Bool) : Bool :=
  decide (b.1 < a.1) || (decide (a.1 = b.1) && (a.2 || !b.2))

/-- Insertion step of the descending style sort. -/
def insertStyle (x : ℤ × Bool) : List (ℤ × Bool) → List (ℤ × Bool)
  | [] => [x]
  | y :: t => if styleGe x y then x :: y :: t else y :: insertStyle x t

/-- Descending insertion sort of style pairs. -/
def sortStyles (l : List (ℤ × Bool)) : List (ℤ × Bool) :=
  l.foldr insertStyle []

/-- The heading styles of a candidate list. -/
def stylesOfCands (cands : List Line) : List (ℤ × Bool) :=
  sortStyles ((cands.map (fun c => (c.size, c.is_bold))).dedup)

/-- Position of a style in the sorted style list (the dictionary
`style_to_level` maps the style at position `i` to `"H" + (i+1)`). -/
def idxOf' (a : ℤ × Bool) : List (ℤ × Bool) → Option Nat
  | [] => none
  | b :: t => if b = a then some 0 else (idxOf' a t).map (· + 1)

/-- `style_to_level.get((size, is_bold), "H4")`. -/
def styleLevel (styles : List (ℤ × Bool)) (st : ℤ × Bool) : String :=
  match idxOf' st styles with
  | some i => "H" ++ toString (i + 1)
  | none => "H4"

/-- The page written into an outline entry: decremented by one in cover
mode when the candidate's raw page exceeds 1. -/
def adjPage (isCover : Bool) (p : Nat) : Nat :=
  if isCover && decide (1 < p) then p - 1 else p

/-- The outline entry emitted for a candidate. -/
def mkEntry (isCover : Bool) (styles : List (ℤ × Bool)) (c : Line) : Entry :=
  { level := styleLevel styles (c.size, c.is_bold)
    text := c.text
    page := adjPage isCover c.page }

/-- The deduplication key of a candidate: its text and raw page. -/
def keyOf (c : Line) : String × Nat := (c.text, c.page)

/-- The candidate walk, tracking the `seen` set of `(text, page)` keys. -/
def dedupWalk (seen : List (String × Nat)) : List Line → List Line
  | [] => []
  | c :: rest =>
    if keyOf c ∈ seen then dedupWalk seen rest
    else c :: dedupWalk (keyOf c :: seen) rest

/-- The candidates that actually produce outline entries: first
occurrence of each `(text, page)` key, in order. -/
def emittedCandidates (cands : List Line) : List Line := dedupWalk [] cands

/-- The emission walk of the level assigner, carrying the `seen` set. -/
def outlineWalk (isCover : Bool) (styles : List (ℤ × Bool))
    (seen : List (String × Nat)) : List Line → List Entry
  | [] => []
  | c :: rest =>
    if keyOf c ∈ seen then outlineWalk isCover styles seen rest
    else mkEntry isCover styles c :: outlineWalk isCover styles (keyOf c :: seen) rest

/-- The outline built from the candidate list. -/
def buildOutline (isCover : Bool) (styles : List (ℤ × Bool)) (cands : List Line) : List Entry :=
  outlineWalk isCover styles [] cands

/-- `extract_title_from_cover(lines, body_size)`: page-1 lines larger
than `1.2 * body`, joined by single spaces, stripped. -/
def extractTitleFromCover (lines : List Line) (body : ℤ) : String :=
  pstrip (String.intercalate " "
    ((lines.filter (fun l => decide (l.page = 1) && decide (6 * body < 5 * l.size))).map Line.text))

/-- The non-cover title walk: accumulate page-1 lines larger than
`1.2 * body` and not in the footer set; once accumulation has begun,
stop at the first line that fails the condition. -/
def nonCoverWalk (body : ℤ) (footers : List String) : List Line → String → String
  | [], acc => acc
  | l :: rest, acc =>
    if l.page = 1 ∧ 6 * body < 5 * l.size ∧ l.text ∉ footers then
      nonCoverWalk body footers rest (acc ++ l.text ++ " ")
    else if acc ≠ "" then acc
    else nonCoverWalk body footers rest acc

/-- Characters kept by `re.sub(r'[^\w\s\-:]', '', title)`: word
characters, whitespace, hyphen, colon. -/
def keepChar (c : Char) : Bool :=
  c.isAlphanum || c = '_' || wspace c || c = '-' || c = ':'

/-- `re.sub(r'\s+', ' ', t)`: collapse whitespace runs to single spaces. -/
def collapseWs (s : String) : String :=
  String.mk ((s.toList.foldl (fun (p : List Char × Bool) c =>
    if wspace c then (if p.2 then p else (p.1 ++ [' '], true))
    else (p.1 ++ [c], false)) ([], false)).1)

/-- The sanitization performed by `clean_title`: strip, remove special
characters, normalize spaces. -/
def sanitizeTitle (s : String) : String :=
  collapseWs (String.mk ((pstrip s).toList.filter keepChar))

/-- The rejection test of `clean_title`: shorter than 5 characters, or no
ASCII letter. -/
def rejectedTitle (s : String) : Bool :=
  decide (s.length < 5) || !s.toList.any Char.isAlpha

/-- `clean_title(title)`: sanitize, then reject short or letterless
results. -/
def clean_title (s : String) : Option String :=
  let t := sanitizeTitle s
  if rejectedTitle t then none else some t

/-- The reconstructed lines of a document. -/
def linesOf (doc : Doc) : List Line := reconstruct doc

/-- The body size of a document. -/
def bodyOf (doc : Doc) : ℤ := bodyStyle doc

/-- The cover-page decision for a document. -/
def isCoverOf (doc : Doc) : Bool := looksLikeCoverPage (linesOf doc) (bodyOf doc)

/-- The footer-exclusion set of a document. -/
def footersOf (doc : Doc) : List String := footersToIgnore doc.pages (linesOf doc)

/-- The heading candidates of a document. -/
def candsOf (doc : Doc) : List Line :=
  (linesOf doc).filter (candidateFilter (footersOf doc) (bodyOf doc))

/-- The outline of a document (empty when there are no candidates, as in
the source's `if candidates:` guard). -/
def outlineOf (doc : Doc) : List Entry :=
  buildOutline (isCoverOf doc) (stylesOfCands (candsOf doc)) (candsOf doc)

/-- The raw (pre-sanitization) title: the cover branch joins all large
page-1 lines; the non-cover branch takes the contiguous leading run of
large page-1 lines, then strips. -/
def rawTitle (doc : Doc) : String :=
  if isCoverOf doc then extractTitleFromCover (linesOf doc) (bodyOf doc)
  else pstrip (nonCoverWalk (bodyOf doc) (footersOf doc) (linesOf doc) "")

/-- The final title: `clean_title(title) or clean_title(metadata) or
(outline[0]['text'] if outline else "Untitled Document")`. -/
def titleOf (doc : Doc) : String :=
  match clean_title (rawTitle doc) with
  | some t => t
  | none =>
    match clean_title doc.metaTitle with
    | some t => t
    | none =>
      match outlineOf doc with
      | e :: _ => e.text
      | [] => "Untitled Document"

/-- `analyze_document_structure(doc)`: the full pipeline, with the
zero-page early return. -/
def analyze (doc : Doc) : String × List Entry :=
  if doc.pages.length = 0 then ("Untitled Document", [])
  else (titleOf doc, outlineOf doc)

/-- The title fallback chain exactly as the specification words it: the
first non-rejected element of sanitized extracted title, sanitized
metadata title, first outline entry's text (when the outline is
non-empty), then the literal string. -/
def titleFallbackSpec (extracted meta : String) (outline : List Entry) : String :=
  if rejectedTitle (sanitizeTitle extracted) = false then sanitizeTitle extracted
  else if rejectedTitle (sanitizeTitle meta) = false then sanitizeTitle meta
  else
    match outline with
    | e :: _ => e.text
    | [] => "Untitled Document"

/-- A one-page document whose first page is a cover (three large,
well-separated lines) and whose large lines become heading candidates:
every candidate sits on raw page 1. -/
def exDocA : Doc :=
  { pages := [
      { height := 100
        blocks := [
          { lines := [
              { spans := [{ text := "Head A", size := 14, font := "Helv" }], y0 := 10, y1 := 20 },
              { spans := [{ text := "Head B", size := 14, font := "Helv" }], y0 := 30, y1 := 40 },
              { spans := [{ text := "Head C", size := 14, font := "Helv" }], y0 := 50, y1 := 60 }] },
          { lines := [
              { spans := [{ text := "plain body", size := 10, font := "Helv" }], y0 := 62, y1 := 64 },
              { spans := [{ text := "plain body two", size := 10, font := "Helv" }], y0 := 66, y1 := 68 },
              { spans := [{ text := "more body", size := 10, font := "Helv" }], y0 := 70, y1 := 72 },
              { spans := [{ text := "end body", size := 10, font := "Helv" }], y0 := 74, y1 := 76 }] }] }]
    metaTitle := "" }

/-- A two-page cover document carrying the same heading text on raw
pages 1 and 2: after the cover offset both entries report page 1. -/
def exDocB : Doc :=
  { pages := [
      { height := 100
        blocks := [
          { lines := [
              { spans := [{ text := "Head A", size := 14, font := "Helv" }], y0 := 10, y1 := 20 },
              { spans := [{ text := "Head B", size := 14, font := "Helv" }], y0 := 30, y1 := 40 },
              { spans := [{ text := "Head C", size := 14, font := "Helv" }], y0 := 50, y1 := 60 },
              { spans := [{ text := "Dup Head", size := 12, font := "Arial-Bold" }], y0 := 66, y1 := 70 }] },
          { lines := [
              { spans := [{ text := "plain body", size := 10, font := "Helv" }], y0 := 72, y1 := 74 },
              { spans := [{ text := "more body here", size := 10, font := "Helv" }], y0 := 76, y1 := 78 }] }] },
      { height := 100
        blocks := [
          { lines := [
              { spans := [{ text := "Dup Head", size := 12, font := "Arial-Bold" }], y0 := 10, y1 := 14 }] },
          { lines := [
              { spans := [{ text := "plain body", size := 10, font := "Helv" }], y0 := 20, y1 := 22 },
              { spans := [{ text := "more body", size := 10, font := "Helv" }], y0 := 24, y1 := 26 }] }] }]
    metaTitle := "" }

/-- A one-page document with a footer-zone line: with one page the footer
sample list is `[0, 0]`, so the line's text is counted twice. -/
def exDocC : Doc :=
  { pages := [
      { height := 100
        blocks := [
          { lines := [
              { spans := [{ text := "plain body", size := 10, font := "Helv" }], y0 := 10, y1 := 12 },
              { spans := [{ text := "more body", size := 10, font := "Helv" }], y0 := 14, y1 := 16 },
              { spans := [{ text := "end body", size := 10, font := "Helv" }], y0 := 18, y1 := 20 }] },
          { lines := [
              { spans := [{ text := "Page Footer", size := 10, font := "Helv" }], y0 := 90, y1 := 94 }] }] }]
    metaTitle := "" }

/-- A document with no pages. -/
def exDocEmpty : Doc := { pages := [], metaTitle := "Some Metadata Title" }

/-- The reconstructed form of the first large line of `exDocA`. -/
def lineA1 : Line :=
  { page := 1, text := "Head A", size := 14, font := "Helv", is_bold := false,
    space_above := 10, y0 := 10 }

/-- The reconstructed form of the footer line of `exDocC`. -/
def lineF : Line :=
  { page := 1, text := "Page Footer", size := 10, font := "Helv", is_bold := false,
    space_above := 90, y0 := 90 }

/-- The reconstructed form of a heading line used to witness the scoring
threshold (with body size 10 it scores 3 + 2 + 1 = 6). -/
def lineW : Line :=
  { page := 1, text := "Head A", size := 14, font := "Helv", is_bold := false,
    space_above := 10, y0 := 10 }

/-- The first outline entry of `exDocA`. -/
def entryA : Entry := { level := "H1", text := "Head A", page := 1 }

theorem head?_append_left {α : Type} {l t : List α} {c : α}
    (h : l.head? = some c) : (l ++ t).head? = some c := by
  cases l with
  | nil => simp at h
  | cons a u => simpa using h

theorem head?_dropWhile {p : Char → Bool} {l : List Char} {c : Char}
    (h : (l.dropWhile p).head? = some c) : p c = false := by
  induction l with
  | nil => simp [List.dropWhile] at h
  | cons a t ih =>
    rw [List.dropWhile_cons] at h
    by_cases hp : p a
    · rw [if_pos hp] at h
      exact ih h
    · rw [if_neg hp] at h
      simp only [List.head?_cons, Option.some.injEq] at h
      rw [← h]
      exact Bool.of_not_eq_true hp

theorem dropWhile_eq_self_of_head? {p : Char → Bool} {l : List Char}
    (h : ∀ c, l.head? = some c → p c = false) : l.dropWhile p = l := by
  cases l with
  | nil => rfl
  | cons a t =>
    rw [List.dropWhile_cons, if_neg]
    rw [h a rfl]
    simp

theorem stripL_dropWhile (l : List Char) :
    List.dropWhile wspace (stripL l) = stripL l := by
  apply dropWhile_eq_self_of_head?
  intro c hc
  unfold stripL at hc
  obtain ⟨t, ht⟩ := List.rdropWhile_prefix wspace (l.dropWhile wspace)
  have hA : (l.dropWhile wspace).head? = some c := by
    rw [← ht]
    exact head?_append_left hc
  exact head?_dropWhile hA

theorem stripL_idem (l : List Char) : stripL (stripL l) = stripL l := by
  show List.rdropWhile wspace (List.dropWhile wspace (stripL l)) = stripL l
  rw [stripL_dropWhile]
  unfold stripL
  exact List.rdropWhile_idempotent wspace _

theorem pstrip_idem (s : String) : pstrip (pstrip s) = pstrip s := by
  unfold pstrip
  rw [show (String.mk (stripL s.toList)).toList = stripL s.toList from rfl, stripL_idem]

theorem outlineWalk_eq (ic : Bool) (styles : List (ℤ × Bool))
    (seen : List (String × Nat)) (l : List Line) :
    outlineWalk ic styles seen l = (dedupWalk seen l).map (mkEntry ic styles) := by
  induction l generalizing seen with
  | nil => rfl
  | cons c rest ih =>
    unfold outlineWalk dedupWalk
    by_cases h : keyOf c ∈ seen
    · simp only [if_pos h]
      exact ih seen
    · simp only [if_neg h, List.map_cons]
      rw [ih]

theorem buildOutline_eq (ic : Bool) (styles : List (ℤ × Bool)) (cands : List Line) :
    buildOutline ic styles cands = (emittedCandidates cands).map (mkEntry ic styles) :=
  outlineWalk_eq ic styles [] cands

theorem dedupWalk_sublist (seen : List (String × Nat)) (l : List Line) :
    List.Sublist (dedupWalk seen l) l := by
  induction l generalizing seen with
  | nil => exact List.Sublist.refl _
  | cons c rest ih =>
    unfold dedupWalk
    by_cases h : keyOf c ∈ seen
    · simp only [if_pos h]
      exact (ih seen).cons c
    · simp only [if_neg h]
      exact (ih (keyOf c :: seen)).cons₂ c

theorem emittedCandidates_sublist (cands : List Line) :
    List.Sublist (emittedCandidates cands) cands :=
  dedupWalk_sublist [] cands

theorem dedupWalk_keys (seen : List (String × Nat)) (l : List Line) :
    ((dedupWalk seen l).map keyOf).Nodup ∧
      ∀ k ∈ (dedupWalk seen l).map keyOf, k ∉ seen := by
  induction l generalizing seen with
  | nil => exact ⟨List.nodup_nil, by simp [dedupWalk]⟩
  | cons c rest ih =>
    unfold dedupWalk
    by_cases h : keyOf c ∈ seen
    · simp only [if_pos h]
      exact ih seen
    · simp only [if_neg h, List.map_cons]
      obtain ⟨ihn, ihs⟩ := ih (keyOf c :: seen)
      refine ⟨List.nodup_cons.mpr ⟨fun hmem => ?_, ihn⟩, ?_⟩
      · exact ihs _ hmem (List.mem_cons_self _ _)
      · intro k hk
        rcases List.mem_cons.mp hk with h1 | h1
        · rw [h1]; exact h
        · intro hks
          exact ihs k h1 (List.mem_cons_of_mem _ hks)

theorem dedupWalk_find? (seen : List (String × Nat)) (l : List Line)
    (k : String × Nat) (hk : k ∉ seen) :
    (dedupWalk seen l).find? (fun x => decide (keyOf x = k)) =
      l.find? (fun x => decide (keyOf x = k)) := by
  induction l generalizing seen with
  | nil => rfl
  | cons c rest ih =>
    unfold dedupWalk
    by_cases h : keyOf c ∈ seen
    · simp only [if_pos h]
      have hne : ¬(keyOf c = k) := fun he => hk (he ▸ h)
      rw [List.find?_cons_of_neg _ (by simpa using hne)]
      exact ih seen hk
    · simp only [if_neg h]
      by_cases he : keyOf c = k
      · rw [List.find?_cons_of_pos _ (by simpa using he),
          List.find?_cons_of_pos _ (by simpa using he)]
      · rw [List.find?_cons_of_neg _ (by simpa using he),
          List.find?_cons_of_neg _ (by simpa using he)]
        exact ih (keyOf c :: seen) (by
          intro hmem
          rcases List.mem_cons.mp hmem with h1 | h1
          · exact he h1.symm
          · exact hk h1)

theorem mem_insertStyle {x y : ℤ × Bool} {l : List (ℤ × Bool)} :
    x ∈ insertStyle y l ↔ x = y ∨ x ∈ l := by
  induction l with
  | nil => simp [insertStyle]
  | cons a t ih =>
    unfold insertStyle
    by_cases h : styleGe y a
    · simp only [if_pos h, List.mem_cons]
    · simp only [if_neg h, List.mem_cons, ih]
      tauto

theorem mem_sortStyles {x : ℤ × Bool} {l : List (ℤ × Bool)} :
    x ∈ sortStyles l ↔ x ∈ l := by
  induction l with
  | nil => simp [sortStyles]
  | cons a t ih =>
    show x ∈ insertStyle a (sortStyles t) ↔ _
    rw [mem_insertStyle, ih]
    simp

theorem idxOf'_isSome {a : ℤ × Bool} {l : List (ℤ × Bool)} (h : a ∈ l) :
    (idxOf' a l).isSome = true := by
  induction l with
  | nil => cases h
  | cons b t ih =>
    unfold idxOf'
    by_cases hb : b = a
    · simp [hb]
    · rcases List.mem_cons.mp h with h1 | h1
      · exact absurd h1.symm hb
      · simp only [if_neg hb]
        have hs := ih h1
        cases hi : idxOf' a t with
        | none => rw [hi] at hs; simp at hs
        | some v => rfl

theorem reconstructBlockLines_text {pn : Nat} {y : ℚ} {ls : List SrcLine} {r : Line}
    (h : r ∈ reconstructBlockLines pn y ls) : ∃ j, r.text = pstrip j := by
  induction ls generalizing y with
  | nil => cases h
  | cons l rest ih =>
    unfold reconstructBlockLines at h
    revert h
    unfold reconstructLine
    match hs : l.spans with
    | [] => exact fun h => ih h
    | s :: tl =>
      simp only []
      by_cases hl : (pstrip (String.intercalate " " ((s :: tl).map Span.text))).length < 2
      · simp only [if_pos hl]
        exact fun h => ih h
      · simp only [if_neg hl]
        intro h
        rcases List.mem_cons.mp h with h1 | h1
        · exact ⟨String.intercalate " " ((s :: tl).map Span.text), by rw [h1]⟩
        · exact ih h1

theorem passes_parts {footers : List String} {l : Line}
    (h : passesExclusions footers l = true) :
    pstrip l.text ∉ footers ∧ 4 ≤ (pstrip l.text).length := by
  unfold passesExclusions at h
  simp only [Bool.and_eq_true, Bool.not_eq_true', decide_eq_true_eq,
    decide_eq_false_iff_not] at h
  refine ⟨h.1.1.1.1.1, ?_⟩
  have := h.1.1.2
  omega

theorem analyze_fst (doc : Doc) :
    (analyze doc).1 = if doc.pages.length = 0 then "Untitled Document" else titleOf doc := by
  unfold analyze
  split <;> rfl

theorem analyze_snd (doc : Doc) :
    (analyze doc).2 = if doc.pages.length = 0 then [] else outlineOf doc := by
  unfold analyze
  split <;> rfl

theorem linesOf_strip {doc : Doc} {l : Line} (h : l ∈ linesOf doc) :
    pstrip l.text = l.text := by
  unfold linesOf reconstruct at h
  rw [List.mem_flatten] at h
  obtain ⟨pg, hpg, hl⟩ := h
  rw [List.mem_map] at hpg
  obtain ⟨pi, _, hpi⟩ := hpg
  rw [← hpi] at hl
  unfold reconstructPage at hl
  rw [List.mem_flatten] at hl
  obtain ⟨bl, hbl, hl2⟩ := hl
  rw [List.mem_map] at hbl
  obtain ⟨b, _, hb⟩ := hbl
  rw [← hb] at hl2
  obtain ⟨j, hj⟩ := reconstructBlockLines_text hl2
  rw [hj, pstrip_idem]

theorem outlineOf_entry {doc : Doc} {e : Entry} (h : e ∈ outlineOf doc) :
    ∃ c ∈ emittedCandidates (candsOf doc),
      e = mkEntry (isCoverOf doc) (stylesOfCands (candsOf doc)) c := by
  unfold outlineOf buildOutline at h
  rw [outlineWalk_eq, List.mem_map] at h
  obtain ⟨c, hc, he⟩ := h
  exact ⟨c, hc, he.symm⟩

theorem outline_text_len {doc : Doc} {e : Entry} (h : e ∈ outlineOf doc) :
    4 ≤ e.text.length ∧ pstrip e.text = e.text := by
  obtain ⟨c, hc, he⟩ := outlineOf_entry h
  have hmem : c ∈ candsOf doc := (emittedCandidates_sublist _).subset hc
  obtain ⟨hl, hf⟩ := List.mem_filter.mp hmem
  have hstrip := linesOf_strip hl
  obtain ⟨hpass, -⟩ := Bool.and_eq_true _ _ |>.mp hf
  obtain ⟨-, hlen⟩ := passes_parts hpass
  rw [hstrip] at hlen
  subst he
  exact ⟨hlen, hstrip⟩

theorem accepted_ne_empty {s : String} (h : rejectedTitle s = false) : s ≠ "" := by
  unfold rejectedTitle at h
  simp only [Bool.or_eq_false_iff, decide_eq_false_iff_not] at h
  intro he
  rw [he] at h
  exact h.1 (by decide)

/-- C1 counterexample: `exDocA` is detected as a cover page, its outline
is non-empty, and every one of its heading candidates sits on raw
page 1 — so outline entries do come from page-1 candidates in cover
mode, contrary to the claim. -/
theorem C1_counterexample :
    isCoverOf exDocA = true ∧ (analyze exDocA).2 ≠ [] ∧
      ∀ c ∈ candsOf exDocA, c.page = 1 := by with_unfolding_all decide

/-- C1 (amended): in cover mode the level-assignment walk does not
suppress page-1 candidates: the outline is exactly the per-key-first
candidates mapped to entries, and a candidate on raw page 1 keeps its
page unchanged (only raw pages above 1 are decremented). -/
theorem C1_cover_mode_emits_page_one (ic : Bool) (styles : List (ℤ × Bool))
    (cands : List Line) :
    buildOutline ic styles cands = (emittedCandidates cands).map (mkEntry ic styles) ∧
      ∀ c ∈ emittedCandidates cands, c.page = 1 → (mkEntry ic styles c).page = c.page := by
  refine ⟨buildOutline_eq ic styles cands, ?_⟩
  intro c _ h1
  simp [mkEntry, adjPage, h1]

/-- C2 counterexample: the outline of `exDocB` carries the same
`(text, page)` pair twice — the cover offset maps raw pages 1 and 2 to
the same reported page. -/
theorem C2_counterexample :
    ¬ ((analyze exDocB).2.map (fun e => (e.text, e.page))).Nodup := by
  with_unfolding_all decide

/-- C2 (amended): the emitted candidates are a subsequence of the
candidate list (reading order), their raw `(text, page)` keys are
pairwise distinct, and the emitted representative of every key is the
first candidate carrying it; the uniqueness holds for the raw page, not
the cover-adjusted reported page. -/
theorem C2_dedup_by_raw_key (cands : List Line) :
    List.Sublist (emittedCandidates cands) cands ∧
      ((emittedCandidates cands).map keyOf).Nodup ∧
      ∀ c ∈ cands,
        (emittedCandidates cands).find? (fun x => decide (keyOf x = keyOf c)) =
          cands.find? (fun x => decide (keyOf x = keyOf c)) := by
  refine ⟨emittedCandidates_sublist cands, (dedupWalk_keys [] cands).1, ?_⟩
  intro c _
  exact dedupWalk_find? [] cands (keyOf c) (by simp)

/-- C3: a line that passes every exclusion rule becomes a heading
candidate iff its additive score reaches 4; a score of exactly 3 is
excluded and a score of exactly 4 is included. -/
theorem C3_score_threshold (footers : List String) (body : ℤ) (l : Line)
    (h : passesExclusions footers l = true) :
    (candidateFilter footers body l = true ↔ 4 ≤ lineScore body l) ∧
      (lineScore body l = 3 → candidateFilter footers body l = false) ∧
      (lineScore body l = 4 → candidateFilter footers body l = true) := by
  unfold candidateFilter
  rw [h]
  refine ⟨by simp, fun h3 => by simp [h3], fun h4 => by simp [h4]⟩

/-- C3 witness at a concrete line (score 6 against body size 10). -/
theorem C3_witness :
    passesExclusions [] lineW = true ∧
      (candidateFilter [] 10 lineW = true ↔ 4 ≤ lineScore 10 lineW) :=
  ⟨by with_unfolding_all decide,
    (C3_score_threshold [] 10 lineW (by with_unfolding_all decide)).1⟩

/-- C4: for a document with pages, the final title is the fallback chain
value — sanitized extracted title, else sanitized metadata title, else
the first outline entry's text, else the literal — and is never the
empty string. -/
theorem C4_title_fallback_chain (doc : Doc) (h : doc.pages ≠ []) :
    (analyze doc).1 = titleFallbackSpec (rawTitle doc) doc.metaTitle (analyze doc).2 ∧
      (analyze doc).1 ≠ "" := by
  have hlen0 : ¬doc.pages.length = 0 := by
    intro h0
    exact h (List.length_eq_zero.mp h0)
  rw [analyze_fst, analyze_snd, if_neg hlen0, if_neg hlen0]
  constructor
  · unfold titleOf titleFallbackSpec clean_title
    by_cases h1 : rejectedTitle (sanitizeTitle (rawTitle doc))
    · by_cases h2 : rejectedTitle (sanitizeTitle doc.metaTitle)
      · simp [h1, h2]
      · simp [h1, h2]
    · simp [h1]
  · unfold titleOf clean_title
    by_cases h1 : rejectedTitle (sanitizeTitle (rawTitle doc))
    · by_cases h2 : rejectedTitle (sanitizeTitle doc.metaTitle)
      · simp only [h1, h2, if_true]
        cases ho : outlineOf doc with
        | nil => simp [ho]
        | cons e rest =>
          simp only [ho]
          have he : e ∈ outlineOf doc := by
            rw [ho]
            exact List.mem_cons_self e rest
          have h4 := (outline_text_len he).1
          intro hemp
          rw [hemp] at h4
          have : ("" : String).length = 0 := rfl
          omega
      · simp only [h1, h2, if_true, if_false]
        exact accepted_ne_empty (Bool.of_not_eq_true h2)
    · simp only [h1, if_false]
      exact accepted_ne_empty (Bool.of_not_eq_true h1)

/-- C4 witness: `exDocA` has pages, and its title follows the chain. -/
theorem C4_witness :
    exDocA.pages ≠ [] ∧
      ((analyze exDocA).1 =
          titleFallbackSpec (rawTitle exDocA) exDocA.metaTitle (analyze exDocA).2 ∧
        (analyze exDocA).1 ≠ "") :=
  ⟨by decide, C4_title_fallback_chain exDocA (by decide)⟩

/-- C5: the cover detector returns true iff at least three page-1 lines
exceed 1.3× body size and every such large line after the first has a
gap above strictly greater than 5. -/
theorem C5_cover_detector_iff (lines : List Line) (body : ℤ) :
    looksLikeCoverPage lines body = true ↔
      (3 ≤ (largeLines lines body).length ∧
        ∀ l ∈ (largeLines lines body).drop 1, (5 : ℚ) < l.space_above) := by
  unfold looksLikeCoverPage
  simp [List.all_eq_true]

/-- C6: a reconstructed line whose text is counted more than once in the
footer zone of the sampled pages lands in the footer-exclusion set and
is never a heading candidate. -/
theorem C6_footer_suppression (doc : Doc) (l : Line)
    (h1 : l ∈ linesOf doc)
    (h2 : 1 < countOf (footerCounts doc.pages (linesOf doc)) l.text) :
    l.text ∈ footersOf doc ∧ l ∉ candsOf doc := by
  have hmem : l.text ∈ footersOf doc := by
    unfold countOf at h2
    cases hf : (footerCounts doc.pages (linesOf doc)).find? (fun p => p.1 = l.text) with
    | none => rw [hf] at h2; simp at h2
    | some p =>
      rw [hf] at h2
      have hp := List.mem_of_find?_eq_some hf
      have hpe : p.1 = l.text := by
        have := List.find?_some hf
        simpa using this
      unfold footersOf footersToIgnore
      rw [List.mem_map]
      exact ⟨p, List.mem_filter.mpr ⟨hp, by simpa using h2⟩, hpe⟩
  refine ⟨hmem, ?_⟩
  intro hc
  obtain ⟨-, hfilt⟩ := List.mem_filter.mp hc
  obtain ⟨hpass, -⟩ := Bool.and_eq_true _ _ |>.mp hfilt
  obtain ⟨hfoot, -⟩ := passes_parts hpass
  rw [linesOf_strip h1] at hfoot
  exact hfoot hmem

/-- C6 witness: the footer line of `exDocC` is counted twice (its single
page is sampled twice) and is excluded. -/
theorem C6_witness :
    lineF ∈ linesOf exDocC ∧
      1 < countOf (footerCounts exDocC.pages (linesOf exDocC)) lineF.text ∧
      (lineF.text ∈ footersOf exDocC ∧ lineF ∉ candsOf exDocC) :=
  ⟨by with_unfolding_all decide, by with_unfolding_all decide,
    C6_footer_suppression exDocC lineF (by with_unfolding_all decide)
      (by with_unfolding_all decide)⟩

/-- C7: the reported page of every emitted entry is the candidate's raw
page, decremented by one exactly when the document is in cover mode and
the raw page exceeds 1; in particular cover mode maps raw page 3 to 2. -/
theorem C7_reported_pages (ic : Bool) (styles : List (ℤ × Bool)) (cands : List Line) :
    (buildOutline ic styles cands).map Entry.page =
      (emittedCandidates cands).map (fun c => adjPage ic c.page) ∧
      adjPage true 3 = 2 := by
  refine ⟨?_, by decide⟩
  rw [buildOutline_eq, List.map_map]
  rfl

/-- C8: the defensive "H4" branch of the style lookup is unreachable:
every emitted candidate's `(size, is_bold)` pair occurs in the style
list built from the same candidates. -/
theorem C8_style_lookup_total (cands : List Line) (c : Line)
    (h : c ∈ emittedCandidates cands) :
    (idxOf' (c.size, c.is_bold) (stylesOfCands cands)).isSome = true := by
  have hc : c ∈ cands := (emittedCandidates_sublist cands).subset h
  apply idxOf'_isSome
  unfold stylesOfCands
  rw [mem_sortStyles, List.mem_dedup]
  exact List.mem_map.mpr ⟨c, hc, rfl⟩

/-- C8 witness at the first emitted candidate of `exDocA`. -/
theorem C8_witness :
    lineA1 ∈ emittedCandidates (candsOf exDocA) ∧
      (idxOf' (lineA1.size, lineA1.is_bold) (stylesOfCands (candsOf exDocA))).isSome = true :=
  ⟨by with_unfolding_all decide,
    C8_style_lookup_total (candsOf exDocA) lineA1 (by with_unfolding_all decide)⟩

/-- C9: a zero-page document yields exactly the default title and an
empty outline. -/
theorem C9_zero_pages (doc : Doc) (h : doc.pages.length = 0) :
    analyze doc = ("Untitled Document", []) := by
  unfold analyze
  rw [if_pos h]

/-- C9 witness: the empty document (its metadata title is ignored). -/
theorem C9_witness :
    exDocEmpty.pages.length = 0 ∧ analyze exDocEmpty = ("Untitled Document", []) :=
  ⟨rfl, C9_zero_pages exDocEmpty rfl⟩

/-- C10: every emitted outline entry carries text of length at least 4
with no leading or trailing whitespace. -/
theorem C10_outline_text_invariant (doc : Doc) (e : Entry) (h : e ∈ (analyze doc).2) :
    4 ≤ e.text.length ∧ pstrip e.text = e.text := by
  rw [analyze_snd] at h
  by_cases hp : doc.pages.length = 0
  · rw [if_pos hp] at h
    cases h
  · rw [if_neg hp] at h
    exact outline_text_len h

/-- C10 witness at the first entry of `exDocA`. -/
theorem C10_witness :
    entryA ∈ (analyze exDocA).2 ∧
      (4 ≤ entryA.text.length ∧ pstrip entryA.text = entryA.text) :=
  ⟨by with_unfolding_all decide,
    C10_outline_text_invariant exDocA entryA (by with_unfolding_all decide)⟩

end PdfOutline
